import Mathlib

namespace Slangvolution

/-!
Shallow embedding of the semantic-change scoring core of the repository
(`semantic_change.py` and `semantic_change_scores.py`).

Numeric vectors are lists of rationals.  The numeric square root used by
`np.sqrt` / `np.linalg.norm` / `cosine_similarity` is an abstract parameter
`sq : ℚ → ℚ`; none of the verified properties depend on any fact about it,
so every theorem below holds for each of its implementations.  The sklearn
clustering fits and silhouette scores are abstract oracles: a seeded fit
(`random_state=seed`) is a pure function of its configuration and the data,
matching sklearn's documented determinism for a fixed `random_state`, while
an unseeded fit additionally consumes the process-wide RNG state.
-/

abbrev Vec := List ℚ

abbrev Data := List Vec

def euclidianName : String := "euclidian"

def cosineName : String := "cosine"

def manhattanName : String := "manhattan"

def canberraName : String := "canberra"

def combined2Name : String := "combined2"

def combined3aName : String := "combined3a"

def combined3bName : String := "combined3b"

def combined4Name : String := "combined4"

def combinedName : String := "combined"

def kmeansName : String := "kmeans"

def gmmName : String := "gmm"

def modelErrMsg : String := "Please set model=kmeans or gmm"

def emptyMaxMsg : String := "ValueError: max of empty sequence"

def bestLabelsVar : String := "best_cluster_labels"

/-- Kernel-reducible form of the rational 0.1 (the silhouette threshold). -/
def qTenth : ℚ := ⟨1, 10, by norm_num, by norm_num⟩

/-- Kernel-reducible form of the rational 9/10 (a test silhouette value). -/
def qNine : ℚ := ⟨9, 10, by norm_num, by norm_num⟩

/-- Kernel-reducible form of the rational 1/2 (a test silhouette value). -/
def qHalf : ℚ := ⟨1, 2, by norm_num, by norm_num⟩

/-! ### Metric library: `compute_average_pairwise_difference` -/

/-- Elementwise difference `x - y` of two equally long vectors (numpy `x - y`). -/
def vsub (x y : Vec) : Vec := List.zipWith (fun a b => a - b) x y

def sqSum (v : Vec) : ℚ := (v.map (fun c => c ^ 2)).sum

/-- Embeds `np.linalg.norm(v)` (default `ord=2`): square root of the sum of squares. -/
def norm2 (sq : ℚ → ℚ) (v : Vec) : ℚ := sq (sqSum v)

/-- Embeds `np.linalg.norm(v, ord=1)`. -/
def norm1 (v : Vec) : ℚ := (v.map (fun c => |c|)).sum

def dot (x y : Vec) : ℚ := (List.zipWith (fun a b => a * b) x y).sum

/-- Embeds `scipy.spatial.distance.canberra`; rational division by zero is zero,
matching scipy's convention of skipping zero denominators. -/
def canberraDist (x y : Vec) : ℚ :=
  (List.zipWith (fun a b => |a - b| / (|a| + |b|)) x y).sum

/-- Embeds one entry of sklearn `cosine_similarity`. -/
def cosSim (sq : ℚ → ℚ) (x y : Vec) : ℚ := dot x y / (norm2 sq x * norm2 sq y)

/-- The list of per-pair terms produced by `for x1 in A: for x2 in B: ...append(f x1 x2)`. -/
def pairTerms (f : Vec → Vec → ℚ) (A B : Data) : List ℚ :=
  (A.map (fun x1 => B.map (fun x2 => f x1 x2))).flatten

/-- Embeds `np.mean` of a list (or of all entries of a matrix). -/
def npMean (l : List ℚ) : ℚ := l.sum / (l.length : ℚ)

def pairMean (f : Vec → Vec → ℚ) (A B : Data) : ℚ := npMean (pairTerms f A B)

/-- The scaled L2 term of the combined metrics:
`np.linalg.norm(x2-x1) / np.sqrt(np.linalg.norm(x1)**2 + np.linalg.norm(x2)**2)`. -/
def scaledL2 (sq : ℚ → ℚ) (x1 x2 : Vec) : ℚ :=
  norm2 sq (vsub x2 x1) / sq ((norm2 sq x1) ^ 2 + (norm2 sq x2) ^ 2)

/-- The scaled L1 term:
`np.linalg.norm(x2-x1, ord=1) / (np.linalg.norm(x1, ord=1) + np.linalg.norm(x2, ord=1))`. -/
def scaledL1 (x1 x2 : Vec) : ℚ := norm1 (vsub x2 x1) / (norm1 x1 + norm1 x2)

/-- The scaled Canberra term: `canberra(x1, x2) / 768`. -/
def scaledCanberra (x1 x2 : Vec) : ℚ := canberraDist x1 x2 / 768

/-- Return value of `compute_average_pairwise_difference`: a scalar for the
known metrics, or — on an unknown metric name — the untouched initial Python
list `APD = []`, returned silently. -/
inductive APDVal where
  | num (x : ℚ)
  | raw (xs : List ℚ)
deriving DecidableEq

/-- Embeds `compute_average_pairwise_difference` (identical in both modules):
the if/elif chain over the metric name, falling through to returning the
initial empty list on an unknown name. -/
def compute_average_pairwise_difference (sq : ℚ → ℚ) (period1_reps period2_reps : Data)
    (dist : String) : APDVal :=
  if dist = euclidianName then
    APDVal.num (pairMean (fun x1 x2 => norm2 sq (vsub x2 x1)) period1_reps period2_reps)
  else if dist = cosineName then
    APDVal.num (1 - pairMean (cosSim sq) period1_reps period2_reps)
  else if dist = manhattanName then
    APDVal.num (pairMean (fun x1 x2 => norm1 (vsub x2 x1)) period1_reps period2_reps)
  else if dist = canberraName then
    APDVal.num (pairMean (fun x1 x2 => canberraDist x1 x2) period1_reps period2_reps)
  else if dist = combined2Name then
    APDVal.num ((1/2) * (pairMean (scaledL2 sq) period1_reps period2_reps
      + (1/2) * (1 - pairMean (cosSim sq) period1_reps period2_reps)))
  else if dist = combined3aName then
    APDVal.num ((1/3) * (pairMean (scaledL2 sq) period1_reps period2_reps
      + (1/2) * (1 - pairMean (cosSim sq) period1_reps period2_reps)
      + pairMean scaledL1 period1_reps period2_reps))
  else if dist = combined3bName then
    APDVal.num ((1/3) * (pairMean (scaledL2 sq) period1_reps period2_reps
      + (1/2) * (1 - pairMean (cosSim sq) period1_reps period2_reps)
      + pairMean scaledCanberra period1_reps period2_reps))
  else if dist = combined4Name then
    APDVal.num ((1/4) * (pairMean (scaledL2 sq) period1_reps period2_reps
      + (1/2) * (1 - pairMean (cosSim sq) period1_reps period2_reps)
      + pairMean scaledL1 period1_reps period2_reps
      + pairMean scaledCanberra period1_reps period2_reps))
  else APDVal.raw []

def supportedMetrics : List String :=
  [euclidianName, manhattanName, canberraName, combined2Name,
   combined3aName, combined3bName, combined4Name, cosineName]

/-! ### Model selection by silhouette: the two `get_clusters_by_silhouette` -/

/-- Configuration of a seeded sklearn clusterer. -/
inductive ClustererCfg where
  | kmeans (K seed : ℕ)
  | gmm (K seed : ℕ)
deriving DecidableEq

/-- Abstract sklearn oracle: `fit` is `clusterer.fit_predict(data)` for a seeded
clusterer, `silhouette` is `silhouette_score(data, labels)`. -/
structure ClusterOracle where
  fit : ClustererCfg → Data → List ℤ
  silhouette : Data → List ℤ → ℚ

/-- A Python early abort: either an exception propagating out (`raise`), or an
early `return` of an error object as a value (`ret`), as in
`semantic_change_scores.get_clusters_by_silhouette`. -/
inductive PyAbort where
  | ret (msg : String)
  | raise (msg : String)
deriving DecidableEq

/-- Observable outcome of a `get_clusters_by_silhouette` call. -/
inductive PyResult where
  | triple (labels : List ℤ) (K : ℕ) (sil : ℚ)
  | retNameError (msg : String)
  | raised (msg : String)
deriving DecidableEq

/-- Embeds `get_clusterer` of `semantic_change.py` (raises NameError on an
unknown model name). -/
def get_clusterer (model : String) (K seed : ℕ) : Except String ClustererCfg :=
  if model = kmeansName then Except.ok (ClustererCfg.kmeans K seed)
  else if model = gmmName then Except.ok (ClustererCfg.gmm K seed)
  else Except.error modelErrMsg

/-- The clusterer configuration selected for a valid model name. -/
def cfgOf (model : String) (K seed : ℕ) : ClustererCfg :=
  if model = kmeansName then ClustererCfg.kmeans K seed else ClustererCfg.gmm K seed

/-- Inner seed loop of `semantic_change.get_clusters_by_silhouette`: the
per-seed silhouette scores for one `K` (dict `silhouette_scores_K`). -/
def gridScoresV1 (O : ClusterOracle) (data : Data) (model : String) (K : ℕ) :
    List ℕ → Except PyAbort (List (ℕ × ℚ))
  | [] => Except.ok []
  | seed :: rest =>
    match get_clusterer model K seed with
    | Except.error e => Except.error (PyAbort.raise e)
    | Except.ok c =>
      match gridScoresV1 O data model K rest with
      | Except.error e => Except.error e
      | Except.ok tail => Except.ok ((seed, O.silhouette data (O.fit c data)) :: tail)

/-- Inner seed loop of `semantic_change_scores.get_clusters_by_silhouette`:
the model check is inline, and an unknown model name makes the function
`return NameError(...)` (an early return of a value, not a raise). -/
def gridScoresV2 (O : ClusterOracle) (data : Data) (model : String) (K : ℕ) :
    List ℕ → Except PyAbort (List (ℕ × ℚ))
  | [] => Except.ok []
  | seed :: rest =>
    if model = kmeansName then
      match gridScoresV2 O data model K rest with
      | Except.error e => Except.error e
      | Except.ok tail =>
        Except.ok ((seed, O.silhouette data (O.fit (ClustererCfg.kmeans K seed) data)) :: tail)
    else if model = gmmName then
      match gridScoresV2 O data model K rest with
      | Except.error e => Except.error e
      | Except.ok tail =>
        Except.ok ((seed, O.silhouette data (O.fit (ClustererCfg.gmm K seed) data)) :: tail)
    else Except.error (PyAbort.ret modelErrMsg)

/-- `silhouette_scores[K] = max(silhouette_scores_K.values())` and
`best_seeds[K] = max(silhouette_scores_K, key=silhouette_scores_K.get)`:
Python `max` raises ValueError on an empty sequence and keeps the first
maximal element on ties. -/
def entryForK : List (ℕ × ℚ) → Except PyAbort (ℚ × ℕ)
  | [] => Except.error (PyAbort.raise emptyMaxMsg)
  | p :: ps =>
    Except.ok (ps.foldl (fun m q => max m q.2) p.2,
               (ps.foldl (fun b q => if q.2 > b.2 then q else b) p).1)

/-- Outer K loop of `semantic_change.get_clusters_by_silhouette`: for each K,
the pair (max silhouette over seeds, best seed), in K order. -/
def gridV1 (O : ClusterOracle) (data : Data) (model : String) (seeds : List ℕ) :
    List ℕ → Except PyAbort (List (ℕ × ℚ × ℕ))
  | [] => Except.ok []
  | K :: rest =>
    match gridScoresV1 O data model K seeds with
    | Except.error e => Except.error e
    | Except.ok scores =>
      match entryForK scores with
      | Except.error e => Except.error e
      | Except.ok ms =>
        match gridV1 O data model seeds rest with
        | Except.error e => Except.error e
        | Except.ok tail => Except.ok ((K, ms.1, ms.2) :: tail)

/-- Outer K loop of `semantic_change_scores.get_clusters_by_silhouette`. -/
def gridV2 (O : ClusterOracle) (data : Data) (model : String) (seeds : List ℕ) :
    List ℕ → Except PyAbort (List (ℕ × ℚ × ℕ))
  | [] => Except.ok []
  | K :: rest =>
    match gridScoresV2 O data model K seeds with
    | Except.error e => Except.error e
    | Except.ok scores =>
      match entryForK scores with
      | Except.error e => Except.error e
      | Except.ok ms =>
        match gridV2 O data model seeds rest with
        | Except.error e => Except.error e
        | Except.ok tail => Except.ok ((K, ms.1, ms.2) :: tail)

/-- Python `max` over a nonempty list of values. -/
def pyListMax : List ℚ → Option ℚ
  | [] => none
  | x :: xs => some (xs.foldl max x)

/-- `max(silhouette_scores, key=silhouette_scores.get)` over the per-K entries:
the first entry (in K order) achieving the maximal silhouette. -/
def argmaxEntry : List (ℕ × ℚ × ℕ) → Option (ℕ × ℚ × ℕ)
  | [] => none
  | e :: es => some (es.foldl (fun b q => if q.2.1 > b.2.1 then q else b) e)

/-- Embeds `get_clusters_by_silhouette` of `semantic_change.py` (lines
263-287).  After the grid search, on the refit branch the source calls
`get_clusterer(model, K, seed)` where `K` is the leaked loop variable,
whose value is the last element of `Ks` — not `best_K`. -/
def get_clusters_by_silhouette_v1 (O : ClusterOracle) (data : Data) (model : String)
    (k_min k_max : ℕ) (seeds : List ℕ) (threshold : ℚ) : PyResult :=
  let Ks := List.range' k_min (k_max + 1 - k_min)
  match gridV1 O data model seeds Ks with
  | Except.error (PyAbort.raise e) => PyResult.raised e
  | Except.error (PyAbort.ret e) => PyResult.retNameError e
  | Except.ok entries =>
    match pyListMax (entries.map (fun e => e.2.1)) with
    | none => PyResult.raised emptyMaxMsg
    | some best_silhouette =>
      if best_silhouette < threshold then
        PyResult.triple (List.replicate data.length 0) 1 0
      else
        match argmaxEntry entries, Ks.getLast? with
        | some best, some Klast =>
          (match get_clusterer model Klast best.2.2 with
           | Except.error e => PyResult.raised e
           | Except.ok c => PyResult.triple (O.fit c data) best.1 best_silhouette)
        | _, _ => PyResult.raised emptyMaxMsg

/-- Embeds `get_clusters_by_silhouette` of `semantic_change_scores.py` (lines
97-129): same grid search, but the refit uses `best_K`, and an unknown model
name is returned as a NameError value rather than raised. -/
def get_clusters_by_silhouette_v2 (O : ClusterOracle) (data : Data) (model : String)
    (k_min k_max : ℕ) (seeds : List ℕ) (threshold : ℚ) : PyResult :=
  let Ks := List.range' k_min (k_max + 1 - k_min)
  match gridV2 O data model seeds Ks with
  | Except.error (PyAbort.raise e) => PyResult.raised e
  | Except.error (PyAbort.ret e) => PyResult.retNameError e
  | Except.ok entries =>
    match pyListMax (entries.map (fun e => e.2.1)) with
    | none => PyResult.raised emptyMaxMsg
    | some best_silhouette =>
      if best_silhouette < threshold then
        PyResult.triple (List.replicate data.length 0) 1 0
      else
        match argmaxEntry entries with
        | some best =>
          if model = kmeansName then
            PyResult.triple (O.fit (ClustererCfg.kmeans best.1 best.2.2) data)
              best.1 best_silhouette
          else if model = gmmName then
            PyResult.triple (O.fit (ClustererCfg.gmm best.1 best.2.2) data)
              best.1 best_silhouette
          else PyResult.raised emptyMaxMsg
        | none => PyResult.raised emptyMaxMsg

/-- Shape agreement of two results: equal selected K and silhouette, labels
left unconstrained; any non-triple results must agree exactly. -/
def sameKSil : PyResult → PyResult → Prop
  | PyResult.triple _ K1 s1, PyResult.triple _ K2 s2 => K1 = K2 ∧ s1 = s2
  | r1, r2 => r1 = r2

/-! ### The fixed-K heuristic `get_kmeans_cluster_labels` -/

/-- Loop of `get_kmeans_cluster_labels`.  The state is
`(best_score, best_K, cluster_labels)`; the sklearn `KMeans(n_clusters=K)`
constructed here has no `random_state`, so its `fit_predict` consumes the
process-wide RNG state, modelled by threading `ρ` through every fit. -/
def kmeansLabelsAux {ρ : Type} (fitU : ℕ → Data → ρ → List ℤ × ρ)
    (sil : Data → List ℤ → ℚ) (data : Data) :
    List ℕ → ℚ × ℕ × List ℤ → ρ → (List ℤ × ℕ) × ρ
  | [], st, r => ((st.2.2, st.2.1), r)
  | K :: rest, st, r =>
    let fr := fitU K data r
    let s := sil data fr.1
    if s > st.1 then kmeansLabelsAux fitU sil data rest (s, K, fr.1) fr.2
    else kmeansLabelsAux fitU sil data rest st fr.2

/-- Embeds `get_kmeans_cluster_labels` (lines 240-252 of
`semantic_change.py`): initial best score 0.1 (`qTenth`), best K 1 and
all-zero labels; each candidate K is fit by an UNSEEDED `KMeans(n_clusters=K)`
(`fitU`, which reads and advances the global RNG state `rng`). -/
def get_kmeans_cluster_labels {ρ : Type} (fitU : ℕ → Data → ρ → List ℤ × ρ)
    (sil : Data → List ℤ → ℚ) (data : Data) (Ks : List ℕ) (rng : ρ) :
    (List ℤ × ℕ) × ρ :=
  kmeansLabelsAux fitU sil data Ks (qTenth, 1, List.replicate data.length 0) rng

/-! ### Model selection by score: `get_clusters_by_score` -/

/-- Abstract oracle for the score-driven policy: elbow detection
(`choose_kmeans_k_with_elbow data k_min k_max seed`), seeded
`KMeans(K, random_state=seed).fit_predict`, silhouette, BIC grid search
(`choose_gmm_params_with_bic data k_min k_max seed` returning
`(best_K, best_cv)`), and seeded `GaussianMixture(K, cv, seed).fit_predict`. -/
structure ScoreOracle where
  elbow : Data → ℕ → ℕ → ℕ → ℕ
  kmeansFit : ℕ → ℕ → Data → List ℤ
  silhouette : Data → List ℤ → ℚ
  gmmBIC : Data → ℕ → ℕ → ℕ → ℕ × String
  gmmFit : ℕ → String → ℕ → Data → List ℤ

/-- Observable outcome of `get_clusters_by_score`: a normal result, an
UnboundLocalError on the named variable, or an IndexError (`seeds[0]` on an
empty seed list in the gmm branch). -/
inductive ScoreResult where
  | ok (labels : List ℤ) (K : ℕ)
  | unboundLocal (v : String)
  | indexError
deriving DecidableEq

/-- One iteration of the kmeans branch of `get_clusters_by_score`: pick K by
elbow, refit seeded KMeans, keep the labels iff the silhouette strictly
improves on the running best (initially 0). -/
def scoreStep (O : ScoreOracle) (data : Data) (k_min k_max : ℕ)
    (acc : ℚ × Option (List ℤ × ℕ)) (seed : ℕ) : ℚ × Option (List ℤ × ℕ) :=
  let K := O.elbow data k_min k_max seed
  let labels := O.kmeansFit K seed data
  let s := O.silhouette data labels
  if s > acc.1 then (s, some (labels, K)) else acc

/-- Embeds `get_clusters_by_score` (lines 382-403 of `semantic_change.py`,
identical at lines 310-331 of `semantic_change_scores.py`).  `best_K` and
`best_cluster_labels` are only assigned inside the conditionals, so the final
`return best_cluster_labels, best_K` raises UnboundLocalError whenever no
branch assigned them. -/
def get_clusters_by_score (O : ScoreOracle) (data : Data) (model : String)
    (k_min k_max : ℕ) (seeds : List ℕ) : ScoreResult :=
  if model = kmeansName then
    match (seeds.foldl (scoreStep O data k_min k_max) (0, none)).2 with
    | some lk => ScoreResult.ok lk.1 lk.2
    | none => ScoreResult.unboundLocal bestLabelsVar
  else if model = gmmName then
    match seeds with
    | [] => ScoreResult.indexError
    | s0 :: _ =>
      let p := O.gmmBIC data k_min k_max s0
      ScoreResult.ok (O.gmmFit p.1 p.2 s0 data) p.1
  else ScoreResult.unboundLocal bestLabelsVar

/-! ### The categorical fitter `fit_categoricals_from_clusters` -/

/-- Lexicographic order on `(label, count)` pairs: the order used by Python
`sorted` on tuples of ints. -/
def tupLe (a b : ℤ × ℕ) : Prop := a.1 < b.1 ∨ (a.1 = b.1 ∧ a.2 ≤ b.2)

instance : DecidableRel tupLe := fun a b => inferInstanceAs (Decidable (_ ∨ _))

instance : IsTotal (ℤ × ℕ) tupLe := by
  constructor
  intro a b
  rcases lt_trichotomy a.1 b.1 with h | h | h
  · exact Or.inl (Or.inl h)
  · rcases Nat.le_total a.2 b.2 with h2 | h2
    · exact Or.inl (Or.inr ⟨h, h2⟩)
    · exact Or.inr (Or.inr ⟨h.symm, h2⟩)
  · exact Or.inr (Or.inl h)

instance : IsTrans (ℤ × ℕ) tupLe := by
  constructor
  rintro a b c (h | ⟨h, h2⟩) (g | ⟨g, g2⟩)
  · exact Or.inl (h.trans g)
  · exact Or.inl (g ▸ h)
  · exact Or.inl (h ▸ g)
  · exact Or.inr ⟨h.trans g, h2.trans g2⟩

instance : IsAntisymm (ℤ × ℕ) tupLe := by
  constructor
  rintro a b (h | ⟨h, h2⟩) (g | ⟨g, g2⟩)
  · exact absurd g (lt_asymm h)
  · exact absurd h (g ▸ lt_irrefl _)
  · exact absurd g (h ▸ lt_irrefl _)
  · exact Prod.ext h (le_antisymm h2 g2)

/-- Items of `collections.Counter(period)`: each distinct label of `period`
paired with its number of occurrences. -/
def counterItems (period : List ℤ) : List (ℤ × ℕ) :=
  period.dedup.map (fun l => (l, period.count l))

/-- `list(Counter(period).items())` extended, as in the source, with `(num, 0)`
for every label of the full assignment missing from `period`. -/
def periodCounts (labels period : List ℤ) : List (ℤ × ℕ) :=
  counterItems period ++
    (labels.filter (fun l => decide (l ∉ period))).map (fun l => (l, 0))

/-- Embeds `fit_categoricals_from_clusters` (identical in both modules):
split at `period1_length`, count each label of the full assignment in each
part, `sorted`, divide by the period length. -/
def fit_categoricals_from_clusters (cluster_assignments : List ℤ)
    (period1_length period2_length : ℕ) : List ℚ × List ℚ :=
  let labels := cluster_assignments.dedup
  let period1 := cluster_assignments.take period1_length
  let period1_counts := List.insertionSort tupLe (periodCounts labels period1)
  let probs1 := period1_counts.map (fun pc => (pc.2 : ℚ) / (period1_length : ℚ))
  let period2 := cluster_assignments.drop period1_length
  let period2_counts := List.insertionSort tupLe (periodCounts labels period2)
  let probs2 := period2_counts.map (fun pc => (pc.2 : ℚ) / (period2_length : ℚ))
  (probs1, probs2)

/-- The distinct labels of the full assignment in ascending order. -/
def sortedLabels (xs : List ℤ) : List ℤ :=
  List.insertionSort (fun a b : ℤ => a ≤ b) xs.dedup

/-- Restates the specification of the categorical fitter: for each label of
the union of labels of the full assignment, in ascending label order, the
count of the label in each sub-sequence divided by the period length. -/
def fitCategoricalsSpec (xs : List ℤ) (len1 len2 : ℕ) : List ℚ × List ℚ :=
  ((sortedLabels xs).map (fun l => (((xs.take len1).count l : ℚ)) / (len1 : ℚ)),
   (sortedLabels xs).map (fun l => (((xs.drop len1).count l : ℚ)) / (len2 : ℚ)))

/-! ### The scoring orchestrator `get_APD_scores` -/

/-- A corpus representation store: an association list from target word to
its list of embedding vectors. -/
abbrev Corpus := List (String × Data)

/-- The guard of `get_APD_scores`: a target is kept iff it is present in both
stores and both periods have strictly more than `min_tweets` samples. -/
def keepTarget (c1 c2 : Corpus) (min_tweets : ℕ) (t : String) : Bool :=
  match c1.lookup t, c2.lookup t with
  | some X1, some X2 => decide (min_tweets < X1.length ∧ min_tweets < X2.length)
  | _, _ => false

/-- Embeds `get_APD_scores` (lines 169-200 of `semantic_change.py`): per
target, skip if missing from either store or if either period's count is at
or below `min_tweets`; otherwise append the word and its combined2 APD score
of the PCA-reduced point set.  `pca` is the external `apply_PCA` reducer. -/
def get_APD_scores (sq : ℚ → ℚ) (pca : Data → ℕ → Data) (c1 c2 : Corpus)
    (targets : List String) (dim min_tweets : ℕ) : List String × List APDVal :=
  match targets with
  | [] => ([], [])
  | t :: rest =>
    let tail := get_APD_scores sq pca c1 c2 rest dim min_tweets
    match c1.lookup t, c2.lookup t with
    | some X1, some X2 =>
      if X1.length ≤ min_tweets ∨ X2.length ≤ min_tweets then tail
      else
        let Xr := pca (X1 ++ X2) dim
        (t :: tail.1,
         compute_average_pairwise_difference sq (Xr.take X1.length)
           (Xr.drop X1.length) combined2Name :: tail.2)
    | _, _ => tail

/-! ### Concrete test oracles, used only by closed evaluation theorems -/

def testData : Data := [[0], [1], [2]]

/-- A concrete seeded-fit oracle: the labels returned depend on the requested
number of clusters (as any real clustering would), here `[K]`. -/
def testFit : ClustererCfg → Data → List ℤ
  | ClustererCfg.kmeans K _, _ => [(K : ℤ)]
  | ClustererCfg.gmm K _, _ => [(K : ℤ)]

/-- A concrete silhouette oracle: 9/10 for the 2-cluster fit, 1/2 for the
3-cluster fit, 0 otherwise. -/
def testSil (_ : Data) (labels : List ℤ) : ℚ :=
  if labels = [2] then qNine else if labels = [3] then qHalf else 0

def testOracle : ClusterOracle := ⟨testFit, testSil⟩

/-- A concrete unseeded `KMeans(n_clusters=K).fit_predict`, one possible
behavior of sklearn with `random_state=None`: the resulting labeling depends
on the global RNG state (here `ρ = ℕ`), which it also advances. -/
def rngFit (_K : ℕ) (data : Data) (r : ℕ) : List ℤ × ℕ :=
  (List.replicate data.length (r : ℤ), r + 1)

/-- A silhouette oracle that accepts every clustering (score 1 > 0.1). -/
def oneSil (_ : Data) (_ : List ℤ) : ℚ := 1

def covFull : String := "full"

/-- A concrete score-policy oracle: elbow always proposes K = 2, the seeded
KMeans fit records K and the seed in the labels, and the silhouette is 1 for
the seed-7 fit and 0 for every other fit. -/
def testScoreOracle : ScoreOracle :=
  ⟨fun _ _ _ _ => 2,
   fun K seed _ => [(K : ℤ), (seed : ℤ)],
   fun _ labels => if labels = [2, 7] then 1 else 0,
   fun _ _ _ _ => (2, covFull),
   fun _ _ _ _ => [0]⟩

def dbscanName : String := "dbscan"

/-- The silhouette obtained for one seed in the kmeans branch of
`get_clusters_by_score`. -/
def seedSil (O : ScoreOracle) (data : Data) (k_min k_max seed : ℕ) : ℚ :=
  O.silhouette data (O.kmeansFit (O.elbow data k_min k_max seed) seed data)

/-- The pure value of the inner seed loop of `get_clusters_by_silhouette`
when the model name is valid. -/
def gridScoresPure (O : ClusterOracle) (data : Data) (model : String) (K : ℕ)
    (seeds : List ℕ) : List (ℕ × ℚ) :=
  seeds.map (fun seed => (seed, O.silhouette data (O.fit (cfgOf model K seed) data)))

/-! ## Lemmas -/

theorem qTenth_eq : qTenth = 1/10 := by
  apply Rat.ext <;> norm_num [qTenth]

theorem qNine_eq : qNine = 9/10 := by
  apply Rat.ext <;> norm_num [qNine]

theorem qHalf_eq : qHalf = 1/2 := by
  apply Rat.ext <;> norm_num [qHalf]

/-! ### Lemmas about `get_clusters_by_score` (claim C10) -/

theorem scoreStep_eq (O : ScoreOracle) (data : Data) (k_min k_max : ℕ)
    (acc : ℚ × Option (List ℤ × ℕ)) (seed : ℕ) :
    scoreStep O data k_min k_max acc seed =
      if seedSil O data k_min k_max seed > acc.1 then
        (seedSil O data k_min k_max seed,
         some (O.kmeansFit (O.elbow data k_min k_max seed) seed data,
               O.elbow data k_min k_max seed))
      else acc := rfl

theorem scoreFold_some_mono (O : ScoreOracle) (data : Data) (k_min k_max : ℕ)
    (seeds : List ℕ) (acc : ℚ × Option (List ℤ × ℕ)) (h : acc.2.isSome) :
    ((seeds.foldl (scoreStep O data k_min k_max) acc).2).isSome := by
  induction seeds generalizing acc with
  | nil => exact h
  | cons s rest ih =>
    simp only [List.foldl_cons]
    apply ih
    rw [scoreStep_eq]
    split
    · simp
    · exact h

theorem scoreFold_isSome_iff (O : ScoreOracle) (data : Data) (k_min k_max : ℕ) :
    ∀ seeds : List ℕ,
      (((seeds.foldl (scoreStep O data k_min k_max) (0, none)).2).isSome ↔
        ∃ s ∈ seeds, 0 < seedSil O data k_min k_max s) := by
  intro seeds
  induction seeds with
  | nil => simp
  | cons s rest ih =>
    simp only [List.foldl_cons]
    by_cases h : seedSil O data k_min k_max s > 0
    · rw [scoreStep_eq, if_pos (by simpa using h)]
      constructor
      · intro _
        exact ⟨s, List.mem_cons_self s rest, h⟩
      · intro _
        exact scoreFold_some_mono O data k_min k_max rest _ (by simp)
    · rw [scoreStep_eq, if_neg (by simpa using h)]
      rw [ih]
      constructor
      · rintro ⟨x, hx, hpos⟩
        exact ⟨x, List.mem_cons_of_mem s hx, hpos⟩
      · rintro ⟨x, hx, hpos⟩
        rcases List.mem_cons.mp hx with rfl | hx
        · exact absurd hpos h
        · exact ⟨x, hx, hpos⟩

theorem scoreFold_allNonpos (O : ScoreOracle) (data : Data) (k_min k_max : ℕ)
    (seeds : List ℕ) (h : ∀ s ∈ seeds, seedSil O data k_min k_max s ≤ 0) :
    seeds.foldl (scoreStep O data k_min k_max) (0, none) = (0, none) := by
  induction seeds with
  | nil => rfl
  | cons s rest ih =>
    simp only [List.foldl_cons]
    rw [scoreStep_eq, if_neg]
    · exact ih (fun x hx => h x (List.mem_cons_of_mem s hx))
    · exact not_lt.mpr (h s (List.mem_cons_self s rest))

/-! ### Symmetry of the APD metrics (claim C9) -/

theorem sum_map_addQ {β : Type} (L : List β) (g h : β → ℚ) :
    (L.map (fun x => g x + h x)).sum = (L.map g).sum + (L.map h).sum := by
  induction L with
  | nil => simp
  | cons b L ih =>
    simp only [List.map_cons, List.sum_cons, ih]
    ring

theorem zipWith_sum_comm (g : ℚ → ℚ → ℚ) (hg : ∀ a b, g a b = g b a) (x y : Vec) :
    (List.zipWith g x y).sum = (List.zipWith g y x).sum := by
  rw [List.zipWith_comm g x y]
  have h : (fun b a => g a b) = g := by
    funext b a
    rw [hg]
  rw [h]

theorem sqSum_vsub_swap (x y : Vec) : sqSum (vsub x y) = sqSum (vsub y x) := by
  unfold sqSum vsub
  rw [List.map_zipWith, List.map_zipWith]
  exact zipWith_sum_comm (fun a b => (a - b) ^ 2) (fun a b => by ring) x y

theorem norm2_vsub_swap (sq : ℚ → ℚ) (x y : Vec) :
    norm2 sq (vsub x y) = norm2 sq (vsub y x) := by
  unfold norm2
  rw [sqSum_vsub_swap]

theorem norm1_vsub_swap (x y : Vec) : norm1 (vsub x y) = norm1 (vsub y x) := by
  unfold norm1 vsub
  rw [List.map_zipWith, List.map_zipWith]
  exact zipWith_sum_comm (fun a b => |a - b|) (fun a b => abs_sub_comm a b) x y

theorem canberraDist_swap (x y : Vec) : canberraDist x y = canberraDist y x := by
  unfold canberraDist
  apply zipWith_sum_comm
  intro a b
  show |a - b| / (|a| + |b|) = |b - a| / (|b| + |a|)
  rw [abs_sub_comm, add_comm (|a|)]

theorem dot_swap (x y : Vec) : dot x y = dot y x := by
  unfold dot
  exact zipWith_sum_comm (fun a b => a * b) (fun a b => mul_comm a b) x y

theorem cosSim_swap (sq : ℚ → ℚ) (x y : Vec) : cosSim sq x y = cosSim sq y x := by
  unfold cosSim
  rw [dot_swap, mul_comm]

theorem scaledL2_swap (sq : ℚ → ℚ) (x y : Vec) : scaledL2 sq x y = scaledL2 sq y x := by
  unfold scaledL2
  rw [norm2_vsub_swap, add_comm ((norm2 sq x) ^ 2)]

theorem scaledL1_swap (x y : Vec) : scaledL1 x y = scaledL1 y x := by
  unfold scaledL1
  rw [norm1_vsub_swap, add_comm (norm1 x)]

theorem scaledCanberra_swap (x y : Vec) : scaledCanberra x y = scaledCanberra y x := by
  unfold scaledCanberra
  rw [canberraDist_swap]

theorem double_sum_swap (f : Vec → Vec → ℚ) (A B : Data) :
    (A.map (fun a => (B.map (fun b => f a b)).sum)).sum =
      (B.map (fun b => (A.map (fun a => f a b)).sum)).sum := by
  induction A with
  | nil => simp
  | cons a A ih =>
    simp only [List.map_cons, List.sum_cons, sum_map_addQ, ih]

theorem pairTerms_sum (f : Vec → Vec → ℚ) (A B : Data) :
    (pairTerms f A B).sum = (A.map (fun a => (B.map (fun b => f a b)).sum)).sum := by
  unfold pairTerms
  rw [List.sum_flatten, List.map_map]
  rfl

theorem pairTerms_length (f : Vec → Vec → ℚ) (A B : Data) :
    (pairTerms f A B).length = A.length * B.length := by
  unfold pairTerms
  rw [List.length_flatten, List.map_map]
  have h : (List.length ∘ fun x1 => B.map (f x1)) = fun _ => B.length := by
    funext x
    simp
  rw [h]
  simp [List.map_const', List.sum_replicate, smul_eq_mul]

theorem pairMean_symm (f : Vec → Vec → ℚ) (hf : ∀ x y, f x y = f y x) (A B : Data) :
    pairMean f A B = pairMean f B A := by
  unfold pairMean npMean
  rw [pairTerms_sum, pairTerms_sum, pairTerms_length, pairTerms_length]
  have h1 : (B.map (fun b => (A.map (fun a => f b a)).sum)).sum
      = (B.map (fun b => (A.map (fun a => f a b)).sum)).sum := by
    congr 1
    apply List.map_congr_left
    intro b _
    congr 1
    apply List.map_congr_left
    intro a _
    exact hf b a
  rw [h1, ← double_sum_swap, Nat.mul_comm A.length B.length]

theorem apd_eval_euclidian (sq : ℚ → ℚ) (A B : Data) :
    compute_average_pairwise_difference sq A B euclidianName =
      APDVal.num (pairMean (fun x1 x2 => norm2 sq (vsub x2 x1)) A B) := rfl

theorem apd_eval_cosine (sq : ℚ → ℚ) (A B : Data) :
    compute_average_pairwise_difference sq A B cosineName =
      APDVal.num (1 - pairMean (cosSim sq) A B) := rfl

theorem apd_eval_manhattan (sq : ℚ → ℚ) (A B : Data) :
    compute_average_pairwise_difference sq A B manhattanName =
      APDVal.num (pairMean (fun x1 x2 => norm1 (vsub x2 x1)) A B) := rfl

theorem apd_eval_canberra (sq : ℚ → ℚ) (A B : Data) :
    compute_average_pairwise_difference sq A B canberraName =
      APDVal.num (pairMean (fun x1 x2 => canberraDist x1 x2) A B) := rfl

theorem apd_eval_combined2 (sq : ℚ → ℚ) (A B : Data) :
    compute_average_pairwise_difference sq A B combined2Name =
      APDVal.num ((1/2) * (pairMean (scaledL2 sq) A B
        + (1/2) * (1 - pairMean (cosSim sq) A B))) := rfl

theorem apd_eval_combined3a (sq : ℚ → ℚ) (A B : Data) :
    compute_average_pairwise_difference sq A B combined3aName =
      APDVal.num ((1/3) * (pairMean (scaledL2 sq) A B
        + (1/2) * (1 - pairMean (cosSim sq) A B)
        + pairMean scaledL1 A B)) := rfl

theorem apd_eval_combined3b (sq : ℚ → ℚ) (A B : Data) :
    compute_average_pairwise_difference sq A B combined3bName =
      APDVal.num ((1/3) * (pairMean (scaledL2 sq) A B
        + (1/2) * (1 - pairMean (cosSim sq) A B)
        + pairMean scaledCanberra A B)) := rfl

theorem apd_eval_combined4 (sq : ℚ → ℚ) (A B : Data) :
    compute_average_pairwise_difference sq A B combined4Name =
      APDVal.num ((1/4) * (pairMean (scaledL2 sq) A B
        + (1/2) * (1 - pairMean (cosSim sq) A B)
        + pairMean scaledL1 A B
        + pairMean scaledCanberra A B)) := rfl

/-! ### Lemmas about the two `get_clusters_by_silhouette` (claims C1, C2, C4) -/

theorem get_clusterer_valid (model : String) (K seed : ℕ)
    (hm : model = kmeansName ∨ model = gmmName) :
    get_clusterer model K seed = Except.ok (cfgOf model K seed) := by
  rcases hm with rfl | rfl <;> rfl

theorem gridScoresV1_valid (O : ClusterOracle) (data : Data) (model : String) (K : ℕ)
    (hm : model = kmeansName ∨ model = gmmName) : ∀ seeds : List ℕ,
    gridScoresV1 O data model K seeds = Except.ok (gridScoresPure O data model K seeds) := by
  intro seeds
  induction seeds with
  | nil => rfl
  | cons s rest ih =>
    simp only [gridScoresV1, get_clusterer_valid model K s hm, ih, gridScoresPure,
      List.map_cons]

theorem gridScoresV2_valid (O : ClusterOracle) (data : Data) (model : String) (K : ℕ)
    (hm : model = kmeansName ∨ model = gmmName) : ∀ seeds : List ℕ,
    gridScoresV2 O data model K seeds = Except.ok (gridScoresPure O data model K seeds) := by
  intro seeds
  induction seeds with
  | nil => rcases hm with rfl | rfl <;> rfl
  | cons s rest ih =>
    rcases hm with rfl | rfl <;>
      simp only [gridScoresV2, ih, gridScoresPure, List.map_cons] <;> rfl

theorem grid_eq (O : ClusterOracle) (data : Data) (model : String) (seeds : List ℕ)
    (hm : model = kmeansName ∨ model = gmmName) : ∀ Ks : List ℕ,
    gridV1 O data model seeds Ks = gridV2 O data model seeds Ks := by
  intro Ks
  induction Ks with
  | nil => rfl
  | cons K rest ih =>
    simp only [gridV1, gridV2, gridScoresV1_valid O data model K hm,
      gridScoresV2_valid O data model K hm, ih]

theorem gridV2_keys (O : ClusterOracle) (data : Data) (model : String) (seeds : List ℕ) :
    ∀ (Ks : List ℕ) (entries : List (ℕ × ℚ × ℕ)),
    gridV2 O data model seeds Ks = Except.ok entries →
    entries.map (fun e => e.1) = Ks := by
  intro Ks
  induction Ks with
  | nil =>
    intro entries h
    simp only [gridV2] at h
    injection h with h2
    rw [← h2]
    rfl
  | cons K rest ih =>
    intro entries h
    simp only [gridV2] at h
    split at h
    · exact absurd h (by simp)
    · split at h
      · exact absurd h (by simp)
      · split at h
        · exact absurd h (by simp)
        · injection h with h2
          rw [← h2, List.map_cons]
          congr 1
          exact ih _ (by assumption)

theorem argmaxFold_mem : ∀ (es : List (ℕ × ℚ × ℕ)) (b : ℕ × ℚ × ℕ),
    es.foldl (fun b q => if q.2.1 > b.2.1 then q else b) b = b ∨
    es.foldl (fun b q => if q.2.1 > b.2.1 then q else b) b ∈ es := by
  intro es
  induction es with
  | nil => intro b; exact Or.inl rfl
  | cons e es ih =>
    intro b
    simp only [List.foldl_cons]
    rcases ih (if e.2.1 > b.2.1 then e else b) with h | h
    · rw [h]
      split
      · exact Or.inr (List.mem_cons_self _ _)
      · exact Or.inl rfl
    · exact Or.inr (List.mem_cons_of_mem _ h)

theorem argmaxEntry_mem (l : List (ℕ × ℚ × ℕ)) (b : ℕ × ℚ × ℕ)
    (h : argmaxEntry l = some b) : b ∈ l := by
  cases l with
  | nil => cases h
  | cons e es =>
    simp only [argmaxEntry] at h
    injection h with h2
    rcases argmaxFold_mem es e with hh | hh
    · rw [← h2, hh]
      exact List.mem_cons_self _ _
    · rw [← h2]
      exact List.mem_cons_of_mem _ hh

theorem foldl_max_lt {t : ℚ} : ∀ (l : List ℚ) (a : ℚ), a < t → (∀ x ∈ l, x < t) →
    l.foldl max a < t := by
  intro l
  induction l with
  | nil => intro a ha _; exact ha
  | cons x xs ih =>
    intro a ha h
    simp only [List.foldl_cons]
    exact ih (max a x) (max_lt ha (h x (List.mem_cons_self _ _)))
      (fun y hy => h y (List.mem_cons_of_mem _ hy))

theorem foldl_max_snd_lt {t : ℚ} : ∀ (l : List (ℕ × ℚ)) (a : ℚ), a < t →
    (∀ x ∈ l, x.2 < t) → l.foldl (fun m q => max m q.2) a < t := by
  intro l
  induction l with
  | nil => intro a ha _; exact ha
  | cons x xs ih =>
    intro a ha h
    simp only [List.foldl_cons]
    exact ih (max a x.2) (max_lt ha (h x (List.mem_cons_self _ _)))
      (fun y hy => h y (List.mem_cons_of_mem _ hy))

theorem pyListMax_lt {t : ℚ} (l : List ℚ) (hne : l ≠ []) (h : ∀ x ∈ l, x < t) :
    ∃ m, pyListMax l = some m ∧ m < t := by
  cases l with
  | nil => cases hne rfl
  | cons x xs =>
    exact ⟨_, rfl, foldl_max_lt xs x (h x (List.mem_cons_self _ _))
      (fun y hy => h y (List.mem_cons_of_mem _ hy))⟩

theorem entryForK_lt {t : ℚ} (scores : List (ℕ × ℚ)) (hne : scores ≠ [])
    (h : ∀ p ∈ scores, p.2 < t) :
    ∃ m s, entryForK scores = Except.ok (m, s) ∧ m < t := by
  cases scores with
  | nil => cases hne rfl
  | cons p ps =>
    refine ⟨_, _, rfl, ?_⟩
    exact foldl_max_snd_lt ps p.2 (h p (List.mem_cons_self _ _))
      (fun y hy => h y (List.mem_cons_of_mem _ hy))

theorem gridV2_ok_below (O : ClusterOracle) (data : Data) (model : String)
    (seeds : List ℕ) (hm : model = kmeansName ∨ model = gmmName) (hs : seeds ≠ [])
    {t : ℚ} : ∀ Ks : List ℕ,
    (∀ K ∈ Ks, ∀ s ∈ seeds, O.silhouette data (O.fit (cfgOf model K s) data) < t) →
    ∃ entries, gridV2 O data model seeds Ks = Except.ok entries ∧
      ∀ e ∈ entries, e.2.1 < t := by
  intro Ks
  induction Ks with
  | nil =>
    intro _
    exact ⟨[], rfl, by simp⟩
  | cons K rest ih =>
    intro hall
    have hscne : gridScoresPure O data model K seeds ≠ [] := by
      simp only [gridScoresPure, ne_eq, List.map_eq_nil_iff]
      exact hs
    have hbelow : ∀ p ∈ gridScoresPure O data model K seeds, p.2 < t := by
      intro p hp
      rcases List.mem_map.mp hp with ⟨s, hsmem, rfl⟩
      exact hall K (List.mem_cons_self _ _) s hsmem
    rcases entryForK_lt _ hscne hbelow with ⟨m, sd, hek, hmt⟩
    rcases ih (fun K2 hK2 s hsm => hall K2 (List.mem_cons_of_mem _ hK2) s hsm)
      with ⟨tail, htail, hbtail⟩
    refine ⟨(K, m, sd) :: tail, ?_, ?_⟩
    · simp only [gridV2, gridScoresV2_valid O data model K hm, hek, htail]
    · intro e he
      rcases List.mem_cons.mp he with rfl | he2
      · exact hmt
      · exact hbtail e he2

theorem fallback_v2 (O : ClusterOracle) (data : Data) (model : String)
    (k_min k_max : ℕ) (seeds : List ℕ) (threshold : ℚ)
    (hm : model = kmeansName ∨ model = gmmName) (hk : k_min ≤ k_max) (hs : seeds ≠ [])
    (hall : ∀ K ∈ List.range' k_min (k_max + 1 - k_min), ∀ s ∈ seeds,
      O.silhouette data (O.fit (cfgOf model K s) data) < threshold) :
    get_clusters_by_silhouette_v2 O data model k_min k_max seeds threshold =
      PyResult.triple (List.replicate data.length 0) 1 0 := by
  have hKsne : List.range' k_min (k_max + 1 - k_min) ≠ [] := by
    have : (List.range' k_min (k_max + 1 - k_min)).length = k_max + 1 - k_min := by
      simp
    intro h0
    rw [h0] at this
    simp at this
    omega
  rcases gridV2_ok_below O data model seeds hm hs _ hall with ⟨entries, hok, hbelow⟩
  have hkeys := gridV2_keys O data model seeds _ entries hok
  have hene : entries ≠ [] := by
    intro h0
    rw [h0] at hkeys
    exact hKsne hkeys.symm
  have hvne : entries.map (fun e => e.2.1) ≠ [] := by
    simp only [ne_eq, List.map_eq_nil_iff]
    exact hene
  rcases pyListMax_lt (entries.map (fun e => e.2.1)) hvne
    (by
      intro x hx
      rcases List.mem_map.mp hx with ⟨e, he, rfl⟩
      exact hbelow e he) with ⟨m, hmax, hmt⟩
  simp only [get_clusters_by_silhouette_v2, hok, hmax]
  rw [if_pos hmt]

theorem fallback_v1 (O : ClusterOracle) (data : Data) (model : String)
    (k_min k_max : ℕ) (seeds : List ℕ) (threshold : ℚ)
    (hm : model = kmeansName ∨ model = gmmName) (hk : k_min ≤ k_max) (hs : seeds ≠ [])
    (hall : ∀ K ∈ List.range' k_min (k_max + 1 - k_min), ∀ s ∈ seeds,
      O.silhouette data (O.fit (cfgOf model K s) data) < threshold) :
    get_clusters_by_silhouette_v1 O data model k_min k_max seeds threshold =
      PyResult.triple (List.replicate data.length 0) 1 0 := by
  have hKsne : List.range' k_min (k_max + 1 - k_min) ≠ [] := by
    have : (List.range' k_min (k_max + 1 - k_min)).length = k_max + 1 - k_min := by
      simp
    intro h0
    rw [h0] at this
    simp at this
    omega
  rcases gridV2_ok_below O data model seeds hm hs _ hall with ⟨entries, hok, hbelow⟩
  have hok1 : gridV1 O data model seeds (List.range' k_min (k_max + 1 - k_min))
      = Except.ok entries := by
    rw [grid_eq O data model seeds hm]
    exact hok
  have hkeys := gridV2_keys O data model seeds _ entries hok
  have hene : entries ≠ [] := by
    intro h0
    rw [h0] at hkeys
    exact hKsne hkeys.symm
  have hvne : entries.map (fun e => e.2.1) ≠ [] := by
    simp only [ne_eq, List.map_eq_nil_iff]
    exact hene
  rcases pyListMax_lt (entries.map (fun e => e.2.1)) hvne
    (by
      intro x hx
      rcases List.mem_map.mp hx with ⟨e, he, rfl⟩
      exact hbelow e he) with ⟨m, hmax, hmt⟩
  simp only [get_clusters_by_silhouette_v1, hok1, hmax]
  rw [if_pos hmt]

theorem sameKSil_v1_v2 (O : ClusterOracle) (data : Data) (model : String)
    (k_min k_max : ℕ) (seeds : List ℕ) (threshold : ℚ)
    (hm : model = kmeansName ∨ model = gmmName) :
    sameKSil (get_clusters_by_silhouette_v1 O data model k_min k_max seeds threshold)
      (get_clusters_by_silhouette_v2 O data model k_min k_max seeds threshold) := by
  simp only [get_clusters_by_silhouette_v1, get_clusters_by_silhouette_v2,
    grid_eq O data model seeds hm]
  rcases hg : gridV2 O data model seeds (List.range' k_min (k_max + 1 - k_min))
    with e | entries
  · rcases e with msg | msg <;> simp only [hg] <;> exact rfl
  · simp only [hg]
    rcases hmax : pyListMax (entries.map fun e => e.2.1) with _ | bs
    · simp only [hmax]
      exact rfl
    · simp only [hmax]
      by_cases hth : bs < threshold
      · rw [if_pos hth, if_pos hth]
        exact ⟨rfl, rfl⟩
      · rw [if_neg hth, if_neg hth]
        have hene : entries ≠ [] := by
          intro h0
          rw [h0] at hmax
          simp [pyListMax] at hmax
        obtain ⟨b, hb⟩ : ∃ b, argmaxEntry entries = some b := by
          cases entries with
          | nil => cases hene rfl
          | cons e es => exact ⟨_, rfl⟩
        have hkeys := gridV2_keys O data model seeds _ entries hg
        have hKsne : List.range' k_min (k_max + 1 - k_min) ≠ [] := by
          intro h0
          exact hene (List.map_eq_nil_iff.mp (hkeys.trans h0))
        obtain ⟨Klast, hKl⟩ :
            ∃ a, (List.range' k_min (k_max + 1 - k_min)).getLast? = some a :=
          Option.isSome_iff_exists.mp (List.getLast?_isSome.mpr hKsne)
        simp only [hb, hKl, get_clusterer_valid model Klast b.2.2 hm]
        rcases hm with rfl | rfl
        · exact ⟨rfl, rfl⟩
        · exact ⟨rfl, rfl⟩

theorem v1_eq_v2_of_kmin_eq_kmax (O : ClusterOracle) (data : Data) (model : String)
    (k_min : ℕ) (seeds : List ℕ) (threshold : ℚ)
    (hm : model = kmeansName ∨ model = gmmName) :
    get_clusters_by_silhouette_v1 O data model k_min k_min seeds threshold =
      get_clusters_by_silhouette_v2 O data model k_min k_min seeds threshold := by
  have hr : List.range' k_min (k_min + 1 - k_min) = [k_min] := by
    have h1 : k_min + 1 - k_min = 1 := by omega
    rw [h1, List.range'_one]
  simp only [get_clusters_by_silhouette_v1, get_clusters_by_silhouette_v2,
    grid_eq O data model seeds hm, hr]
  rcases hg : gridV2 O data model seeds [k_min] with e | entries
  · rcases e with msg | msg <;> simp only [hg]
  · simp only [hg]
    have hkeys := gridV2_keys O data model seeds _ entries hg
    rcases entries with _ | ⟨e, es⟩
    · cases hkeys
    · rcases es with _ | ⟨e2, es2⟩
      · have he1 : e.1 = k_min := by
          simpa using hkeys
        rcases hmax : pyListMax ([e].map fun x => x.2.1) with _ | bs
        · simp only [hmax]
        · simp only [hmax]
          by_cases hth : bs < threshold
          · rw [if_pos hth, if_pos hth]
          · rw [if_neg hth, if_neg hth]
            have hb : argmaxEntry [e] = some e := rfl
            have hKl : ([k_min] : List ℕ).getLast? = some k_min := rfl
            simp only [hb, hKl, get_clusterer_valid model k_min e.2.2 hm]
            subst he1
            rcases hm with rfl | rfl
            · rfl
            · rfl
      · simp at hkeys

/-! ### Lemmas about `fit_categoricals_from_clusters` (claims C5, C6) -/

theorem periodCounts_perm (xs period : List ℤ) (hsub : ∀ x ∈ period, x ∈ xs) :
    (periodCounts xs.dedup period).Perm
      (xs.dedup.map (fun l => (l, period.count l))) := by
  unfold periodCounts counterItems
  have hzero : (xs.dedup.filter (fun l => decide (l ∉ period))).map
        (fun l => ((l : ℤ), (0 : ℕ)))
      = (xs.dedup.filter (fun l => decide (l ∉ period))).map
        (fun l => (l, period.count l)) := by
    apply List.map_congr_left
    intro a ha
    have hnm : a ∉ period := by simpa using (List.mem_filter.mp ha).2
    rw [List.count_eq_zero.mpr hnm]
  rw [hzero]
  have h1 : period.dedup.Perm
      (xs.dedup.filter (fun l => decide (l ∈ period))) := by
    rw [List.perm_ext_iff_of_nodup (List.nodup_dedup period)
      ((List.nodup_dedup xs).filter _)]
    intro a
    simp only [List.mem_dedup, List.mem_filter, decide_eq_true_eq]
    constructor
    · intro ha
      exact ⟨hsub a ha, ha⟩
    · intro ha
      exact ha.2
  have hfun : (fun l : ℤ => decide (l ∉ period))
      = (fun l : ℤ => !(decide (l ∈ period))) := by
    funext l
    simp [decide_not]
  have h2 : ((xs.dedup.filter (fun l => decide (l ∈ period))).map
        (fun l => (l, period.count l)) ++
      (xs.dedup.filter (fun l => decide (l ∉ period))).map
        (fun l => (l, period.count l))).Perm
      (xs.dedup.map (fun l => (l, period.count l))) := by
    rw [hfun, ← List.map_append]
    exact (List.filter_append_perm _ xs.dedup).map _
  exact ((h1.map _).append (List.Perm.refl _)).trans h2

theorem sortedPeriodCounts (xs period : List ℤ) (hsub : ∀ x ∈ period, x ∈ xs) :
    List.insertionSort tupLe (periodCounts xs.dedup period) =
      (sortedLabels xs).map (fun l => (l, period.count l)) := by
  have hperm : (List.insertionSort tupLe (periodCounts xs.dedup period)).Perm
      ((sortedLabels xs).map (fun l => (l, period.count l))) :=
    (List.perm_insertionSort tupLe _).trans
      ((periodCounts_perm xs period hsub).trans
        (((List.perm_insertionSort (fun a b : ℤ => a ≤ b) xs.dedup).map _).symm))
  have hs1 : List.Sorted tupLe
      (List.insertionSort tupLe (periodCounts xs.dedup period)) :=
    List.sorted_insertionSort tupLe _
  have hs2 : List.Sorted tupLe
      ((sortedLabels xs).map (fun l => (l, period.count l))) := by
    apply List.Pairwise.map
    · intro a b hab
      have hab2 : a ≤ b := hab
      rcases hab2.lt_or_eq with h | h
      · exact Or.inl h
      · subst h
        exact Or.inr ⟨rfl, le_refl _⟩
    · exact List.sorted_insertionSort _ xs.dedup
  exact List.eq_of_perm_of_sorted hperm hs1 hs2

theorem fit_categoricals_eq_spec (xs : List ℤ) (len1 len2 : ℕ) :
    fit_categoricals_from_clusters xs len1 len2 = fitCategoricalsSpec xs len1 len2 := by
  have hper1 := sortedPeriodCounts xs (xs.take len1)
    (fun x hx => List.mem_of_mem_take hx)
  have hper2 := sortedPeriodCounts xs (xs.drop len1)
    (fun x hx => List.mem_of_mem_drop hx)
  simp only [fit_categoricals_from_clusters, fitCategoricalsSpec]
  rw [hper1, hper2, List.map_map, List.map_map]
  rfl

theorem sum_map_divQ {β : Type} (L : List β) (g : β → ℚ) (c : ℚ) :
    (L.map (fun l => g l / c)).sum = (L.map g).sum / c := by
  induction L with
  | nil => simp
  | cons a L ih =>
    simp only [List.map_cons, List.sum_cons, ih]
    ring

theorem indicator_sumQ (L : List ℤ) (hL : L.Nodup) (x : ℤ) (hx : x ∈ L) :
    (L.map (fun l => if x = l then (1:ℚ) else 0)).sum = 1 := by
  induction L with
  | nil => cases hx
  | cons a L ih =>
    rcases List.mem_cons.mp hx with rfl | hx2
    · simp only [List.map_cons, List.sum_cons, if_pos rfl]
      have hnot : x ∉ L := (List.nodup_cons.mp hL).1
      have hz : ∀ l ∈ L, (if x = l then (1:ℚ) else 0) = 0 := by
        intro l hl
        rw [if_neg]
        intro he
        exact hnot (he ▸ hl)
      rw [List.map_congr_left hz]
      simp
    · simp only [List.map_cons, List.sum_cons]
      rw [if_neg, ih (List.nodup_cons.mp hL).2 hx2]
      · ring
      · intro he
        exact (List.nodup_cons.mp hL).1 (he ▸ hx2)

theorem count_sumQ (L : List ℤ) (hL : L.Nodup) :
    ∀ p : List ℤ, (∀ x ∈ p, x ∈ L) →
      (L.map (fun l => ((p.count l : ℕ) : ℚ))).sum = (p.length : ℚ) := by
  intro p
  induction p with
  | nil => intro _; simp
  | cons x p ih =>
    intro hsub
    have hxL : x ∈ L := hsub x (List.mem_cons_self x p)
    have hs : ∀ y ∈ p, y ∈ L := fun y hy => hsub y (List.mem_cons_of_mem x hy)
    have hstep : (fun l : ℤ => (((x :: p).count l : ℕ) : ℚ))
        = fun l : ℤ => (((p.count l : ℕ) : ℚ) + if x = l then (1:ℚ) else 0) := by
      funext l
      rw [List.count_cons]
      push_cast
      simp [beq_iff_eq]
    rw [hstep, sum_map_addQ, ih hs, indicator_sumQ L hL x hxL, List.length_cons]
    push_cast
    ring

/-! ### Lemmas about `get_APD_scores` (claim C8) -/

theorem get_APD_scores_filter (sq : ℚ → ℚ) (pca : Data → ℕ → Data) (c1 c2 : Corpus)
    (dim min_tweets : ℕ) : ∀ targets : List String,
    (get_APD_scores sq pca c1 c2 targets dim min_tweets).1 =
      targets.filter (keepTarget c1 c2 min_tweets) ∧
    (get_APD_scores sq pca c1 c2 targets dim min_tweets).2.length =
      (targets.filter (keepTarget c1 c2 min_tweets)).length := by
  intro targets
  induction targets with
  | nil => exact ⟨rfl, rfl⟩
  | cons t rest ih =>
    simp only [get_APD_scores, List.filter_cons]
    rcases h1 : c1.lookup t with _ | X1 <;> rcases h2 : c2.lookup t with _ | X2 <;>
      simp only [keepTarget, h1, h2]
    · simpa using ih
    · simpa using ih
    · simpa using ih
    · by_cases hc : X1.length ≤ min_tweets ∨ X2.length ≤ min_tweets
      · rw [if_pos hc]
        have hlt : ¬ (min_tweets < X1.length ∧ min_tweets < X2.length) := by omega
        rw [if_neg (by simpa using hlt)]
        exact ih
      · rw [if_neg hc]
        have hlt : min_tweets < X1.length ∧ min_tweets < X2.length := by omega
        rw [if_pos (by simpa using hlt)]
        exact ⟨by rw [ih.1], by simpa using ih.2⟩

/-! ## Claim theorems -/

/-- C1: the claim says that when the best silhouette reaches the threshold,
`semantic_change.get_clusters_by_silhouette` refits with the winning K and
that K's best seed and returns those labels with the winning K.  The code
instead refits with the leaked loop variable `K`, whose value is `k_max`.
Evaluated on a grid with `k_min = 2`, `k_max = 3`, seeds `[0]` and silhouettes
9/10 for the 2-cluster fit and 1/2 for the 3-cluster fit: the winning K is 2,
yet the returned labels are those of the `k_max = 3` refit, which differ from
the winning 2-cluster fit's labels. -/
theorem c1_refit_uses_leaked_kmax :
    get_clusters_by_silhouette_v1 testOracle testData kmeansName 2 3 [0] qTenth =
      PyResult.triple (testFit (ClustererCfg.kmeans 3 0) testData) 2 qNine ∧
    testFit (ClustererCfg.kmeans 3 0) testData ≠ testFit (ClustererCfg.kmeans 2 0) testData ∧
    qTenth = 1/10 ∧ qNine = 9/10 :=
  ⟨by decide, by decide, qTenth_eq, qNine_eq⟩

/-- C2 counterexample: the two implementations are not behaviorally
equivalent.  On an unknown model name (`"dbscan"`), `semantic_change.py`
raises a NameError while `semantic_change_scores.py` returns a NameError
object as a value; and on a valid model with winning K 2 and `k_max` 3, the
returned labels differ because `semantic_change.py` refits with the leaked
`k_max` while `semantic_change_scores.py` refits with the winning K. -/
theorem c2_counterexample :
    get_clusters_by_silhouette_v1 testOracle testData dbscanName 2 3 [0] qTenth ≠
      get_clusters_by_silhouette_v2 testOracle testData dbscanName 2 3 [0] qTenth ∧
    get_clusters_by_silhouette_v1 testOracle testData kmeansName 2 3 [0] qTenth ≠
      get_clusters_by_silhouette_v2 testOracle testData kmeansName 2 3 [0] qTenth ∧
    get_clusters_by_silhouette_v1 testOracle testData dbscanName 2 3 [0] qTenth =
      PyResult.raised modelErrMsg ∧
    get_clusters_by_silhouette_v2 testOracle testData dbscanName 2 3 [0] qTenth =
      PyResult.retNameError modelErrMsg :=
  ⟨by decide, by decide, by decide, by decide⟩

/-- C2 amended: for every data set, valid model name (kmeans or gmm), K range
and seed list, the two `get_clusters_by_silhouette` implementations agree on
the selected K and silhouette and on every non-triple outcome; they return
fully identical results when `k_min = k_max`, and also when every grid
silhouette is below the threshold (both then degrade to the single-cluster
fallback).  They are not equivalent in general: the labels may differ when
the winning K differs from `k_max` (semantic_change.py refits with `k_max`),
and on an unknown model name one raises NameError while the other returns it
as a value. -/
theorem c2_amended (O : ClusterOracle) (data : Data) (model : String)
    (k_min k_max : ℕ) (seeds : List ℕ) (threshold : ℚ)
    (hm : model = kmeansName ∨ model = gmmName) :
    sameKSil (get_clusters_by_silhouette_v1 O data model k_min k_max seeds threshold)
      (get_clusters_by_silhouette_v2 O data model k_min k_max seeds threshold) ∧
    (k_min = k_max →
      get_clusters_by_silhouette_v1 O data model k_min k_max seeds threshold =
        get_clusters_by_silhouette_v2 O data model k_min k_max seeds threshold) ∧
    (k_min ≤ k_max → seeds ≠ [] →
      (∀ K ∈ List.range' k_min (k_max + 1 - k_min), ∀ s ∈ seeds,
        O.silhouette data (O.fit (cfgOf model K s) data) < threshold) →
      get_clusters_by_silhouette_v1 O data model k_min k_max seeds threshold =
        get_clusters_by_silhouette_v2 O data model k_min k_max seeds threshold) := by
  refine ⟨sameKSil_v1_v2 O data model k_min k_max seeds threshold hm, ?_, ?_⟩
  · intro he
    subst he
    exact v1_eq_v2_of_kmin_eq_kmax O data model k_min seeds threshold hm
  · intro hk hs hall
    rw [fallback_v1 O data model k_min k_max seeds threshold hm hk hs hall,
      fallback_v2 O data model k_min k_max seeds threshold hm hk hs hall]

/-- C2 witness: the agreement applied at a concrete valid-model input. -/
theorem c2_amended_witness :
    (kmeansName = kmeansName ∨ kmeansName = gmmName) ∧
    (sameKSil (get_clusters_by_silhouette_v1 testOracle testData kmeansName 2 2 [0] qTenth)
      (get_clusters_by_silhouette_v2 testOracle testData kmeansName 2 2 [0] qTenth) ∧
    (2 = 2 →
      get_clusters_by_silhouette_v1 testOracle testData kmeansName 2 2 [0] qTenth =
        get_clusters_by_silhouette_v2 testOracle testData kmeansName 2 2 [0] qTenth) ∧
    (2 ≤ 2 → ([0] : List ℕ) ≠ [] →
      (∀ K ∈ List.range' 2 (2 + 1 - 2), ∀ s ∈ ([0] : List ℕ),
        testOracle.silhouette testData
          (testOracle.fit (cfgOf kmeansName K s) testData) < qTenth) →
      get_clusters_by_silhouette_v1 testOracle testData kmeansName 2 2 [0] qTenth =
        get_clusters_by_silhouette_v2 testOracle testData kmeansName 2 2 [0] qTenth)) :=
  ⟨Or.inl rfl, c2_amended testOracle testData kmeansName 2 2 [0] qTenth (Or.inl rfl)⟩

/-- C3: the claim says none of the three clustering policies depends on
unseeded randomness.  `get_kmeans_cluster_labels` constructs
`KMeans(n_clusters=K)` without a `random_state`, so its fit reads the global
RNG state: with the same data, the same candidate K list and the same input
order, two runs from different global RNG states return different cluster
assignments. -/
theorem c3_unseeded_kmeans_nondeterminism :
    (get_kmeans_cluster_labels rngFit oneSil testData [2] 0).1 ≠
      (get_kmeans_cluster_labels rngFit oneSil testData [2] 1).1 ∧
    (get_kmeans_cluster_labels rngFit oneSil testData [2] 0).1 = ([0, 0, 0], 2) ∧
    (get_kmeans_cluster_labels rngFit oneSil testData [2] 1).1 = ([1, 1, 1], 2) := by
  refine ⟨by decide, by decide, by decide⟩

/-- C4: when every silhouette across the full K-by-seed grid is below the
threshold 0.1, both implementations of `get_clusters_by_silhouette` return
the all-zero label vector of the data's length together with K = 1 (and
silhouette 0). -/
theorem c4_below_threshold_single_cluster (O : ClusterOracle) (data : Data)
    (model : String) (k_min k_max : ℕ) (seeds : List ℕ)
    (hm : model = kmeansName ∨ model = gmmName) (hk : k_min ≤ k_max)
    (hs : seeds ≠ [])
    (hall : ∀ K ∈ List.range' k_min (k_max + 1 - k_min), ∀ s ∈ seeds,
      O.silhouette data (O.fit (cfgOf model K s) data) < 1/10) :
    get_clusters_by_silhouette_v1 O data model k_min k_max seeds (1/10) =
      PyResult.triple (List.replicate data.length 0) 1 0 ∧
    get_clusters_by_silhouette_v2 O data model k_min k_max seeds (1/10) =
      PyResult.triple (List.replicate data.length 0) 1 0 :=
  ⟨fallback_v1 O data model k_min k_max seeds (1/10) hm hk hs hall,
   fallback_v2 O data model k_min k_max seeds (1/10) hm hk hs hall⟩

/-- C4 witness: a concrete grid (k_min 4, k_max 5, one seed) whose silhouettes
are all 0 < 0.1, so both implementations return the single-cluster fallback. -/
theorem c4_below_threshold_single_cluster_witness :
    (kmeansName = kmeansName ∨ kmeansName = gmmName) ∧ 4 ≤ 5 ∧
    ([0] : List ℕ) ≠ [] ∧
    (∀ K ∈ List.range' 4 (5 + 1 - 4), ∀ s ∈ ([0] : List ℕ),
      testOracle.silhouette testData
        (testOracle.fit (cfgOf kmeansName K s) testData) < 1/10) ∧
    (get_clusters_by_silhouette_v1 testOracle testData kmeansName 4 5 [0] (1/10) =
      PyResult.triple (List.replicate testData.length 0) 1 0 ∧
    get_clusters_by_silhouette_v2 testOracle testData kmeansName 4 5 [0] (1/10) =
      PyResult.triple (List.replicate testData.length 0) 1 0) := by
  have hall : ∀ K ∈ List.range' 4 (5 + 1 - 4), ∀ s ∈ ([0] : List ℕ),
      testOracle.silhouette testData
        (testOracle.fit (cfgOf kmeansName K s) testData) < 1/10 := by
    intro K hK s hs2
    fin_cases hK <;> fin_cases hs2 <;>
      norm_num [testOracle, testSil, testFit, cfgOf, kmeansName]
  exact ⟨Or.inl rfl, by norm_num, by simp, hall,
    c4_below_threshold_single_cluster testOracle testData kmeansName 4 5 [0]
      (Or.inl rfl) (by norm_num) (by simp) hall⟩

/-- C5: `fit_categoricals_from_clusters` computes, for each label of the union
of labels of the full assignment in ascending label order, the occurrence
count in each of the two sub-sequences (0 if absent) divided by the
respective period length — proved by showing the source's
count-append-sort-divide pipeline equal to that description for every input —
and in particular maps `[0,0,1,1,2]` with period lengths 3, 2 to
`probs1 = [2/3, 1/3, 0]` and `probs2 = [0, 1/2, 1/2]`. -/
theorem c5_fit_categoricals :
    (∀ (xs : List ℤ) (len1 len2 : ℕ),
      fit_categoricals_from_clusters xs len1 len2 = fitCategoricalsSpec xs len1 len2) ∧
    fit_categoricals_from_clusters [0, 0, 1, 1, 2] 3 2
      = ([2/3, 1/3, 0], [0, 1/2, 1/2]) := by
  refine ⟨fit_categoricals_eq_spec, ?_⟩
  have h : fit_categoricals_from_clusters [0, 0, 1, 1, 2] 3 2
      = ([(2:ℚ)/3, (1:ℚ)/3, (0:ℚ)/3], [(0:ℚ)/2, (1:ℚ)/2, (1:ℚ)/2]) := rfl
  rw [h]
  norm_num

/-- C6: for every assignment and positive period lengths summing to its
length, the two probability vectors have equal length — the number of
distinct labels of the full assignment — and each sums to exactly 1. -/
theorem c6_probs_invariants (xs : List ℤ) (len1 len2 : ℕ)
    (h1 : 0 < len1) (h2 : 0 < len2) (hsum : len1 + len2 = xs.length) :
    (fit_categoricals_from_clusters xs len1 len2).1.length = xs.dedup.length ∧
    (fit_categoricals_from_clusters xs len1 len2).2.length = xs.dedup.length ∧
    (fit_categoricals_from_clusters xs len1 len2).1.sum = 1 ∧
    (fit_categoricals_from_clusters xs len1 len2).2.sum = 1 := by
  rw [fit_categoricals_eq_spec]
  have hnodup : (sortedLabels xs).Nodup :=
    ((List.perm_insertionSort (fun a b : ℤ => a ≤ b) xs.dedup).nodup_iff).mpr
      (List.nodup_dedup xs)
  have hmem : ∀ y ∈ xs, y ∈ sortedLabels xs := by
    intro y hy
    simp [sortedLabels, List.mem_dedup, hy]
  have hlen : (sortedLabels xs).length = xs.dedup.length := by
    simp [sortedLabels]
  have hsum1 : ((sortedLabels xs).map
      (fun l => (((xs.take len1).count l : ℕ) : ℚ))).sum
      = ((xs.take len1).length : ℚ) :=
    count_sumQ (sortedLabels xs) hnodup (xs.take len1)
      (fun x hx => hmem x (List.mem_of_mem_take hx))
  have hsum2 : ((sortedLabels xs).map
      (fun l => (((xs.drop len1).count l : ℕ) : ℚ))).sum
      = ((xs.drop len1).length : ℚ) :=
    count_sumQ (sortedLabels xs) hnodup (xs.drop len1)
      (fun x hx => hmem x (List.mem_of_mem_drop hx))
  have hl1 : (xs.take len1).length = len1 := by
    rw [List.length_take]
    omega
  have hl2 : (xs.drop len1).length = len2 := by
    rw [List.length_drop]
    omega
  refine ⟨by simp [fitCategoricalsSpec, hlen], by simp [fitCategoricalsSpec, hlen], ?_, ?_⟩
  · show ((sortedLabels xs).map
      (fun l => (((xs.take len1).count l : ℕ) : ℚ) / (len1 : ℚ))).sum = 1
    rw [sum_map_divQ, hsum1, hl1]
    exact div_self (Nat.cast_ne_zero.mpr (by omega))
  · show ((sortedLabels xs).map
      (fun l => (((xs.drop len1).count l : ℕ) : ℚ) / (len2 : ℚ))).sum = 1
    rw [sum_map_divQ, hsum2, hl2]
    exact div_self (Nat.cast_ne_zero.mpr (by omega))

/-- C6 witness: the invariants at the concrete assignment `[0,0,1,1,2]` with
period lengths 3 and 2. -/
theorem c6_probs_invariants_witness :
    (0 < 3 ∧ 0 < 2 ∧ 3 + 2 = ([0, 0, 1, 1, 2] : List ℤ).length) ∧
    ((fit_categoricals_from_clusters [0, 0, 1, 1, 2] 3 2).1.length
        = ([0, 0, 1, 1, 2] : List ℤ).dedup.length ∧
      (fit_categoricals_from_clusters [0, 0, 1, 1, 2] 3 2).2.length
        = ([0, 0, 1, 1, 2] : List ℤ).dedup.length ∧
      (fit_categoricals_from_clusters [0, 0, 1, 1, 2] 3 2).1.sum = 1 ∧
      (fit_categoricals_from_clusters [0, 0, 1, 1, 2] 3 2).2.sum = 1) :=
  ⟨⟨by norm_num, by norm_num, by decide⟩,
   c6_probs_invariants [0, 0, 1, 1, 2] 3 2 (by norm_num) (by norm_num) (by decide)⟩

/-- C7: the claim (and the spec's error taxonomy) requires an unknown metric
name to fail loudly with an `InvalidMetric` error.  The code instead falls
through every branch and silently returns the untouched initial value
`APD = []` — here evaluated at the metric name `"combined"`, which
`get_APD_semantic_change_scores` actually passes. -/
theorem c7_unknown_metric_returns_empty : ∀ (sq : ℚ → ℚ) (A B : Data),
    compute_average_pairwise_difference sq A B combinedName = APDVal.raw [] :=
  fun _ _ _ => rfl

/-- C8: `get_APD_scores` omits a target word entirely (no row in any column)
whenever it is missing from either corpus store or either period's sample
count is at or below `min_tweets`, and every kept word contributes exactly one
entry to each output column: the word column is exactly the input list
filtered by the keep-guard, and the score column has the same length. -/
theorem c8_skip_guard (sq : ℚ → ℚ) (pca : Data → ℕ → Data) (c1 c2 : Corpus)
    (targets : List String) (dim min_tweets : ℕ) :
    (get_APD_scores sq pca c1 c2 targets dim min_tweets).1 =
      targets.filter (keepTarget c1 c2 min_tweets) ∧
    (get_APD_scores sq pca c1 c2 targets dim min_tweets).2.length =
      (targets.filter (keepTarget c1 c2 min_tweets)).length :=
  get_APD_scores_filter sq pca c1 c2 dim min_tweets targets

/-- C9: for all non-empty point sets of equal dimension with no zero vector
and every supported metric, `compute_average_pairwise_difference` is
symmetric in its two point sets.  (Proved for every square-root
implementation `sq`; the non-emptiness, dimension and non-degeneracy
hypotheses are stated as in the claim, though the embedding satisfies the
symmetry unconditionally.) -/
theorem c9_apd_symmetry (sq : ℚ → ℚ) (A B : Data) (d : ℕ) (m : String)
    (hm : m ∈ supportedMetrics) (hA : A ≠ []) (hB : B ≠ [])
    (hd : ∀ v ∈ A ++ B, v.length = d) (hz : ∀ v ∈ A ++ B, ∃ c ∈ v, c ≠ 0) :
    compute_average_pairwise_difference sq A B m =
      compute_average_pairwise_difference sq B A m := by
  have heu : pairMean (fun x1 x2 => norm2 sq (vsub x2 x1)) A B
      = pairMean (fun x1 x2 => norm2 sq (vsub x2 x1)) B A :=
    pairMean_symm _ (fun x y => norm2_vsub_swap sq y x) A B
  have hman : pairMean (fun x1 x2 => norm1 (vsub x2 x1)) A B
      = pairMean (fun x1 x2 => norm1 (vsub x2 x1)) B A :=
    pairMean_symm _ (fun x y => norm1_vsub_swap y x) A B
  have hcan : pairMean (fun x1 x2 => canberraDist x1 x2) A B
      = pairMean (fun x1 x2 => canberraDist x1 x2) B A :=
    pairMean_symm _ (fun x y => canberraDist_swap x y) A B
  have hcos : pairMean (cosSim sq) A B = pairMean (cosSim sq) B A :=
    pairMean_symm _ (fun x y => cosSim_swap sq x y) A B
  have hs2 : pairMean (scaledL2 sq) A B = pairMean (scaledL2 sq) B A :=
    pairMean_symm _ (fun x y => scaledL2_swap sq x y) A B
  have hs1 : pairMean scaledL1 A B = pairMean scaledL1 B A :=
    pairMean_symm _ (fun x y => scaledL1_swap x y) A B
  have hsc : pairMean scaledCanberra A B = pairMean scaledCanberra B A :=
    pairMean_symm _ (fun x y => scaledCanberra_swap x y) A B
  simp only [supportedMetrics, List.mem_cons, List.not_mem_nil, or_false] at hm
  rcases hm with rfl | rfl | rfl | rfl | rfl | rfl | rfl | rfl
  · rw [apd_eval_euclidian, apd_eval_euclidian, heu]
  · rw [apd_eval_manhattan, apd_eval_manhattan, hman]
  · rw [apd_eval_canberra, apd_eval_canberra, hcan]
  · rw [apd_eval_combined2, apd_eval_combined2, hs2, hcos]
  · rw [apd_eval_combined3a, apd_eval_combined3a, hs2, hcos, hs1]
  · rw [apd_eval_combined3b, apd_eval_combined3b, hs2, hcos, hsc]
  · rw [apd_eval_combined4, apd_eval_combined4, hs2, hcos, hs1, hsc]
  · rw [apd_eval_cosine, apd_eval_cosine, hcos]

/-- C9 witness: symmetry applied at the spec's concrete scenario sets
`[[1,0]]`, `[[0,1]]` with the cosine metric. -/
theorem c9_apd_symmetry_witness :
    (cosineName ∈ supportedMetrics ∧ ([[1, 0]] : Data) ≠ [] ∧
      ([[0, 1]] : Data) ≠ [] ∧
      (∀ v ∈ ([[1, 0]] : Data) ++ [[0, 1]], v.length = 2) ∧
      (∀ v ∈ ([[1, 0]] : Data) ++ [[0, 1]], ∃ c ∈ v, c ≠ 0)) ∧
    compute_average_pairwise_difference (fun q => q) [[1, 0]] [[0, 1]] cosineName =
      compute_average_pairwise_difference (fun q => q) [[0, 1]] [[1, 0]] cosineName :=
  ⟨⟨by decide, by decide, by decide, by decide, by decide⟩,
   c9_apd_symmetry (fun q => q) [[1, 0]] [[0, 1]] 2 cosineName (by decide)
     (by decide) (by decide) (by decide) (by decide)⟩

/-- C10: `get_clusters_by_score` with model `"kmeans"` returns a defined
(labels, K) result iff some seed's refit achieves a silhouette strictly above
0; when every seed's silhouette is at or below 0 it fails with an
UnboundLocalError on `best_cluster_labels`, and so does any model name other
than `"kmeans"` / `"gmm"`. -/
theorem c10_score_policy_partiality (O : ScoreOracle) (data : Data)
    (k_min k_max : ℕ) (seeds : List ℕ) :
    ((∃ l K, get_clusters_by_score O data kmeansName k_min k_max seeds =
        ScoreResult.ok l K) ↔
      ∃ s ∈ seeds, 0 < O.silhouette data
        (O.kmeansFit (O.elbow data k_min k_max s) s data)) ∧
    ((∀ s ∈ seeds, O.silhouette data
        (O.kmeansFit (O.elbow data k_min k_max s) s data) ≤ 0) →
      get_clusters_by_score O data kmeansName k_min k_max seeds =
        ScoreResult.unboundLocal bestLabelsVar) ∧
    (∀ model : String, model ≠ kmeansName → model ≠ gmmName →
      get_clusters_by_score O data model k_min k_max seeds =
        ScoreResult.unboundLocal bestLabelsVar) := by
  refine ⟨?_, ?_, ?_⟩
  · have hiff := scoreFold_isSome_iff O data k_min k_max seeds
    simp only [seedSil] at hiff
    rw [show get_clusters_by_score O data kmeansName k_min k_max seeds =
        (match (seeds.foldl (scoreStep O data k_min k_max) (0, none)).2 with
         | some lk => ScoreResult.ok lk.1 lk.2
         | none => ScoreResult.unboundLocal bestLabelsVar) from rfl]
    rw [← hiff]
    rcases hf : (seeds.foldl (scoreStep O data k_min k_max) (0, none)).2 with _ | lk
    · simp [hf]
    · simp [hf]
  · intro h
    rw [show get_clusters_by_score O data kmeansName k_min k_max seeds =
        (match (seeds.foldl (scoreStep O data k_min k_max) (0, none)).2 with
         | some lk => ScoreResult.ok lk.1 lk.2
         | none => ScoreResult.unboundLocal bestLabelsVar) from rfl]
    rw [scoreFold_allNonpos O data k_min k_max seeds (by simpa [seedSil] using h)]
  · intro model hk hg
    unfold get_clusters_by_score
    rw [if_neg hk, if_neg hg]

/-- C10 witness: a concrete oracle whose single seed yields silhouette 0,
so the kmeans branch leaves `best_cluster_labels` unbound. -/
theorem c10_score_policy_partiality_witness :
    (∀ s ∈ ([5] : List ℕ), testScoreOracle.silhouette testData
        (testScoreOracle.kmeansFit
          (testScoreOracle.elbow testData 2 10 s) s testData) ≤ 0) ∧
    get_clusters_by_score testScoreOracle testData kmeansName 2 10 [5] =
      ScoreResult.unboundLocal bestLabelsVar :=
  ⟨by decide, (c10_score_policy_partiality testScoreOracle testData 2 10 [5]).2.1
    (by decide)⟩

end Slangvolution
